import Mathlib

/-!
Verification of the volumetric sampling core of a lightmetrica-v3 fork.

This file gives a shallow embedding, over exact rationals, of:
* the point-geometry utilities of include/lm/surface.h (geometryTerm),
* the multi-volume compositor of src/volume/volume_multi.cpp (Volume_Multi),
* the OpenVDB grid converter and converted-grid volume of
  plugin/volume_vdbconvert/volume_vdbconvert.cpp (Volume_VdbConvertScalar),
and proves or refutes the specified properties of those components.

Machine floating-point arithmetic is idealised as exact rational
arithmetic; a floating-point division 0/0, which produces NaN in the
source, is modelled by returning none from an Option-valued embedding of
the function performing it.
-/

/-- component-wise 3-vector of rationals, embedding glm::tvec3 of Float. -/
structure Vec3 where
  x : ℚ
  y : ℚ
  z : ℚ
deriving DecidableEq, Repr

/-- integer 3-vector, embedding glm::tvec3 of int (Vec3i in the plugin). -/
structure Vec3i where
  x : ℤ
  y : ℤ
  z : ℤ
deriving DecidableEq, Repr

namespace Vec3

/-- component-wise addition. -/
def add (a b : Vec3) : Vec3 := ⟨a.x + b.x, a.y + b.y, a.z + b.z⟩

/-- component-wise subtraction. -/
def sub (a b : Vec3) : Vec3 := ⟨a.x - b.x, a.y - b.y, a.z - b.z⟩

/-- component-wise multiplication. -/
def mul (a b : Vec3) : Vec3 := ⟨a.x * b.x, a.y * b.y, a.z * b.z⟩

/-- component-wise division (glm division of vectors). -/
def div (a b : Vec3) : Vec3 := ⟨a.x / b.x, a.y / b.y, a.z / b.z⟩

/-- division of a vector by a scalar, component-wise. -/
def divs (a : Vec3) (s : ℚ) : Vec3 := ⟨a.x / s, a.y / s, a.z / s⟩

/-- multiplication of a vector by a scalar, component-wise. -/
def muls (a : Vec3) (s : ℚ) : Vec3 := ⟨a.x * s, a.y * s, a.z * s⟩

/-- component-wise negation. -/
def neg (a : Vec3) : Vec3 := ⟨-a.x, -a.y, -a.z⟩

/-- dot product, embedding glm::dot. -/
def dot (a b : Vec3) : ℚ := a.x * b.x + a.y * b.y + a.z * b.z

/-- conversion of an integer vector to a rational vector. -/
def ofInt (a : Vec3i) : Vec3 := ⟨(a.x : ℚ), (a.y : ℚ), (a.z : ℚ)⟩

/-- vector with all three components equal, embedding the Vec3(s) constructor. -/
def splat (s : ℚ) : Vec3 := ⟨s, s, s⟩

end Vec3

/-- axis-aligned bounding box, embedding the Bound structure. -/
structure Bound where
  min : Vec3
  max : Vec3
deriving DecidableEq, Repr

/-- membership of a point in an axis-aligned bound, component-wise between
min and max. -/
def Bound.contains (b : Bound) (p : Vec3) : Prop :=
  b.min.x ≤ p.x ∧ p.x ≤ b.max.x ∧
  b.min.y ≤ p.y ∧ p.y ≤ b.max.y ∧
  b.min.z ≤ p.z ∧ p.z ≤ b.max.z

instance (b : Bound) (p : Vec3) : Decidable (b.contains p) := by
  unfold Bound.contains; infer_instance

/-- truncation toward zero, embedding the C conversion used by std::fmod. -/
def truncQ (q : ℚ) : ℤ := if 0 ≤ q then ⌊q⌋ else ⌈q⌉

/-- embedding of std::fmod: the remainder x - y * trunc (x / y), with the
sign of x. -/
def fmodQ (x y : ℚ) : ℚ := x - y * (truncQ (x / y) : ℚ)

/-- embedding of std::round: rounding half away from zero. -/
def roundC (q : ℚ) : ℤ := if 0 ≤ q then ⌊q + 1/2⌋ else ⌈q - 1/2⌉

/-- a ray with origin and direction, embedding the Ray structure. -/
structure Ray where
  o : Vec3
  d : Vec3
deriving DecidableEq, Repr

/-- interface record for an abstract Volume component (lm/volume.h): each
virtual member function of the C++ base class becomes a field. A
constituent volume's eval_color is a total function here; the compositor's
own eval_color is Option-valued because it can divide by zero. -/
structure Volume where
  has_scalar : Bool
  has_color : Bool
  bound : Bound
  max_scalar : ℚ
  eval_scalar : Vec3 → ℚ
  eval_color : Vec3 → Vec3

/-- Modelled from the spec: the constant Inf used by volume_multi.cpp as the
initial accumulator of the bound union lives in a core math header that is
not among the sources; it is a large positive constant. Its value is
irrelevant to the claims below. -/
def InfModel : ℚ := 100000000

/-- state of a constructed Volume_Multi (src/volume/volume_multi.cpp). -/
structure Volume_Multi where
  bound_ : Bound
  volumes_den_ : List Volume
  volumes_alb_ : List Volume
  size_ : ℕ
  max_scalar_ : ℚ

/-- embedding of Volume_Multi::construct. The source throws
Error::InvalidArgument when the albedo list is empty, the density list is
empty, or the lengths differ, and again inside the loading loop when some
albedo volume lacks color or some density volume lacks scalar support; a
thrown exception is modelled as none. The single C++ loop over the density
volumes accumulates the bound union and the max_scalar sum with independent
accumulators; it is split here into one fold per accumulator. -/
def Volume_Multi.construct (volumes_alb volumes_den : List Volume) :
    Option Volume_Multi :=
  if volumes_alb.length = 0 ∨ volumes_den.length = 0 ∨
      volumes_den.length ≠ volumes_alb.length then
    none
  else if volumes_alb.all (fun v => v.has_color) ∧
      volumes_den.all (fun v => v.has_scalar) then
    some
      { bound_ :=
          { min := volumes_den.foldl
              (fun mn v => ⟨min mn.x v.bound.min.x, min mn.y v.bound.min.y,
                min mn.z v.bound.min.z⟩) (Vec3.splat InfModel)
            max := volumes_den.foldl
              (fun mx v => ⟨max mx.x v.bound.max.x, max mx.y v.bound.max.y,
                max mx.z v.bound.max.z⟩) (Vec3.splat (-InfModel)) }
        volumes_den_ := volumes_den
        volumes_alb_ := volumes_alb
        size_ := volumes_alb.length
        max_scalar_ := volumes_den.foldl (fun a v => a + v.max_scalar) 0 }
  else none

/-- embedding of Volume_Multi::has_scalar, which returns the literal true. -/
def Volume_Multi.has_scalar (_ : Volume_Multi) : Bool := true

/-- embedding of Volume_Multi::has_color, which returns the literal true. -/
def Volume_Multi.has_color (_ : Volume_Multi) : Bool := true

/-- embedding of Volume_Multi::bound. -/
def Volume_Multi.bound (m : Volume_Multi) : Bound := m.bound_

/-- embedding of Volume_Multi::max_scalar. -/
def Volume_Multi.max_scalar (m : Volume_Multi) : ℚ := m.max_scalar_

/-- embedding of Volume_Multi::eval_scalar: the running sum over the
density volumes of their eval_scalar at p. -/
def Volume_Multi.eval_scalar (m : Volume_Multi) (p : Vec3) : ℚ :=
  m.volumes_den_.foldl (fun sum v => sum + v.eval_scalar p) 0

/-- embedding of Volume_Multi::eval_color. The source evaluates every
density volume at p into a scratch vector, sums them, and then accumulates
(scalars[i] / sum) * volumes_alb_[i]->eval_color(p) with no guard on sum.
When the list is nonempty and sum is zero every division scalars[i] / sum
is an IEEE 0/0 or x/0, so the accumulated color is indeterminate
(NaN or infinite components); that indeterminate outcome is modelled as
none. -/
def Volume_Multi.eval_color (m : Volume_Multi) (p : Vec3) : Option Vec3 :=
  let scalars := m.volumes_den_.map (fun v => v.eval_scalar p)
  let sum := scalars.foldl (fun a s => a + s) 0
  if scalars.length ≠ 0 ∧ sum = 0 then none
  else
    some ((List.zipWith (fun s v => Vec3.muls (v.eval_color p) (s / sum))
      scalars m.volumes_alb_).foldl Vec3.add (Vec3.splat 0))

/-- Modelled from the spec: the constant Eps that the converter compares
against the per-axis remainder lives in a core math header that is not
among the sources; the spec says only that it is a small epsilon. The
representative value 1/10000 is used where a concrete value is needed;
theorems that depend on it quantify over an arbitrary positive eps. -/
def epsModel : ℚ := 1/10000

/-- observable outcome of a call to march: either the function returned
normally to the caller, or it raised an explicit not-supported signal. -/
inductive MarchOutcome
  | normalReturn
  | raisedNotSupported
deriving DecidableEq, Repr

/-- observable effect of a call to march: its outcome, whether an error
message was written to the log, and how many times the callback ran. -/
structure MarchEffect where
  outcome : MarchOutcome
  errorLogged : Bool
  callbackCalls : ℕ
deriving DecidableEq, Repr

/-- result of Volume_VdbConvertScalar::convert: the persisted metadata
(padded bound, per-axis voxel counts, step size, scaled maximum scalar)
together with the payload samples written to the converted file, in
row-major order with z slowest and x fastest. -/
structure ConvertResult where
  bound : Bound
  dimension : Vec3i
  step_size : ℚ
  max_scalar : ℚ
  payload : List ℚ

/-- runtime state of a loaded Volume_VdbConvertScalar
(plugin/volume_vdbconvert/volume_vdbconvert.cpp). -/
structure Volume_VdbConvertScalar where
  bound_ : Bound
  max_scalar_ : ℚ
  volume_ : List ℚ
  dimension_ : Vec3i

namespace Volume_VdbConvertScalar

/-- embedding of the conversion step of Volume_VdbConvertScalar::convert
(lines 119-184). The source density field provided through the vdbloader
library is the function argument field with tight bound srcBound and
maximum source_max; scale and step_size come from the JSON properties.
For each axis the remainder of the extent modulo step_size is computed
with std::fmod; a remainder below eps is replaced by a full step; the
bound is expanded by (step_size - remainder) / 2 on both sides; the voxel
counts are round(padded extent / step_size + 1); one sample per voxel is
written, sampling the field at bound.min + index * step_size with z as the
outermost loop. -/
def convert (eps : ℚ) (field : Vec3 → ℚ) (srcBound : Bound)
    (source_max scale step_size : ℚ) : ConvertResult :=
  let max_scalar := source_max * scale
  let range := Vec3.sub srcBound.max srcBound.min
  let x_remainder := fmodQ range.x step_size
  let y_remainder := fmodQ range.y step_size
  let z_remainder := fmodQ range.z step_size
  let x_remainder := if x_remainder < eps then step_size else x_remainder
  let y_remainder := if y_remainder < eps then step_size else y_remainder
  let z_remainder := if z_remainder < eps then step_size else z_remainder
  let correction := Vec3.divs
    (Vec3.sub (Vec3.splat step_size) ⟨x_remainder, y_remainder, z_remainder⟩) 2
  let bmin := Vec3.sub srcBound.min correction
  let bmax := Vec3.add srcBound.max correction
  let step_counts :=
    Vec3.add (Vec3.divs (Vec3.sub bmax bmin) step_size) (Vec3.splat 1)
  let x_steps : ℤ := roundC step_counts.x
  let y_steps : ℤ := roundC step_counts.y
  let z_steps : ℤ := roundC step_counts.z
  let payload := (List.range z_steps.toNat).flatMap (fun z =>
    (List.range y_steps.toNat).flatMap (fun y =>
      (List.range x_steps.toNat).map (fun x =>
        field ⟨bmin.x + (x : ℚ) * step_size, bmin.y + (y : ℚ) * step_size,
          bmin.z + (z : ℚ) * step_size⟩)))
  { bound := ⟨bmin, bmax⟩
    dimension := ⟨x_steps, y_steps, z_steps⟩
    step_size := step_size
    max_scalar := max_scalar
    payload := payload }

/-- loading of a converted grid into the runtime state, as intended by
Volume_VdbConvertScalar::construct: metadata fields are taken from the
sidecar and the payload buffer holds the converted samples. (The source's
construct opens the metadata path instead of the converted-payload path
when filling the buffer — a transcription slip noted where relevant; the
claims below fail even under this intended, charitable load.) -/
def ofConvert (cr : ConvertResult) : Volume_VdbConvertScalar :=
  { bound_ := cr.bound
    max_scalar_ := cr.max_scalar
    volume_ := cr.payload
    dimension_ := cr.dimension }

/-- embedding of the private overload Volume_VdbConvertScalar::eval_scalar
(int, int, int) (lines 194-202): indices outside [0, dimension) on any
axis yield zero density, otherwise the payload is read at the row-major
flat index. -/
def eval_scalar_idx (g : Volume_VdbConvertScalar) (x y z : ℤ) : ℚ :=
  if x < 0 ∨ y < 0 ∨ z < 0 ∨ g.dimension_.x ≤ x ∨ g.dimension_.y ≤ y ∨
      g.dimension_.z ≤ z then
    0
  else
    g.volume_.getD
      (z * g.dimension_.x * g.dimension_.y + y * g.dimension_.x + x).toNat 0

/-- embedding of the scalar lerp overload (lines 208-210). -/
def lerp (a b t : ℚ) : ℚ := a + t * (b - a)

/-- embedding of the index lerp overload (lines 204-206). -/
def lerp_idx (g : Volume_VdbConvertScalar) (x1 y1 z1 x2 y2 z2 : ℤ)
    (t : ℚ) : ℚ :=
  lerp (g.eval_scalar_idx x1 y1 z1) (g.eval_scalar_idx x2 y2 z2) t

/-- embedding of the public Volume_VdbConvertScalar::eval_scalar (Vec3)
(lines 271-299): the point is mapped to bound space, scaled by the voxel
counts, and trilinearly interpolated from the cell corners in the fixed
x-then-y-then-z order. -/
def eval_scalar (g : Volume_VdbConvertScalar) (p : Vec3) : ℚ :=
  let p_boundSpace :=
    Vec3.div (Vec3.sub p g.bound_.min) (Vec3.sub g.bound_.max g.bound_.min)
  let p_boundSpace := Vec3.mul p_boundSpace (Vec3.ofInt g.dimension_)
  let lowerLeft : Vec3i :=
    ⟨⌊p_boundSpace.x⌋, ⌊p_boundSpace.y⌋, ⌊p_boundSpace.z⌋⟩
  let upperRight : Vec3i := ⟨lowerLeft.x + 1, lowerLeft.y + 1, lowerLeft.z + 1⟩
  let t := Vec3.sub p_boundSpace (Vec3.ofInt lowerLeft)
  let x00 := g.lerp_idx lowerLeft.x lowerLeft.y lowerLeft.z
    upperRight.x lowerLeft.y lowerLeft.z t.x
  let x01 := g.lerp_idx lowerLeft.x lowerLeft.y upperRight.z
    upperRight.x lowerLeft.y upperRight.z t.x
  let x10 := g.lerp_idx lowerLeft.x upperRight.y lowerLeft.z
    upperRight.x upperRight.y lowerLeft.z t.x
  let x11 := g.lerp_idx lowerLeft.x upperRight.y upperRight.z
    upperRight.x upperRight.y upperRight.z t.x
  let y0 := lerp x00 x10 t.y
  let y1 := lerp x01 x11 t.y
  lerp y0 y1 t.z

/-- embedding of Volume_VdbConvertScalar::march (lines 305-319): the body
writes one error message to the log and returns; the marching loop is
commented out, so the callback is never invoked and no exception reaches
the caller. -/
def march (_g : Volume_VdbConvertScalar) (_ray : Ray)
    (_tmin _tmax _marchStep : ℚ) : MarchEffect :=
  { outcome := MarchOutcome.normalReturn
    errorLogged := true
    callbackCalls := 0 }

end Volume_VdbConvertScalar

/-- geometry of a point in the scene (include/lm/surface.h). The union of
the shading normal n and the direction wo is represented by the single
field n, the member read by geometryTerm. -/
structure PointGeometry where
  degenerated : Bool
  infinite : Bool
  p : Vec3
  n : Vec3
  t : ℚ × ℚ
  u : Vec3
  v : Vec3
deriving DecidableEq, Repr

/-- embedding of surface::geometryTerm (lines 311-318). The call to
std::sqrt is abstracted as an uninterpreted function sqrtF of the squared
distance; every theorem below holds for an arbitrary such function, so no
property of the square root is assumed. -/
def surface.geometryTerm (sqrtF : ℚ → ℚ) (s1 s2 : PointGeometry) : ℚ :=
  let d := Vec3.sub s2.p s1.p
  let L2 := Vec3.dot d d
  let d := Vec3.divs d (sqrtF L2)
  let cos1 := if s1.degenerated then 1 else |Vec3.dot s1.n d|
  let cos2 := if s2.degenerated then 1 else |Vec3.dot s2.n (Vec3.neg d)|
  cos1 * cos2 / L2

/-- embedding of Volume_VdbConvertScalar::bound. -/
def Volume_VdbConvertScalar.bound (g : Volume_VdbConvertScalar) : Bound :=
  g.bound_

/-- embedding of Volume_VdbConvertScalar::max_scalar. -/
def Volume_VdbConvertScalar.max_scalar (g : Volume_VdbConvertScalar) : ℚ :=
  g.max_scalar_

/-- embedding of Volume_VdbConvertScalar::has_scalar, the literal true. -/
def Volume_VdbConvertScalar.has_scalar (_ : Volume_VdbConvertScalar) : Bool :=
  true

/-- embedding of Volume_VdbConvertScalar::has_color, the literal false. -/
def Volume_VdbConvertScalar.has_color (_ : Volume_VdbConvertScalar) : Bool :=
  false

/-- constant-zero density volume with scalar support, used as a concrete
constituent. -/
def denConstZero : Volume :=
  { has_scalar := true
    has_color := false
    bound := ⟨⟨0, 0, 0⟩, ⟨1, 1, 1⟩⟩
    max_scalar := 1
    eval_scalar := fun _ => 0
    eval_color := fun _ => ⟨0, 0, 0⟩ }

/-- constant-white albedo volume with color support, used as a concrete
constituent. -/
def albConstWhite : Volume :=
  { has_scalar := false
    has_color := true
    bound := ⟨⟨0, 0, 0⟩, ⟨1, 1, 1⟩⟩
    max_scalar := 0
    eval_scalar := fun _ => 0
    eval_color := fun _ => ⟨1, 1, 1⟩ }

/-- convert run used as the concrete grid round-trip instance: the
constant-1 source field on the bound [0,1]^3, no scaling, step_size 1/2. -/
def c1Convert : ConvertResult :=
  Volume_VdbConvertScalar.convert epsModel (fun _ => 1)
    ⟨⟨0, 0, 0⟩, ⟨1, 1, 1⟩⟩ 1 1 (1/2)

/-- the loaded grid of that conversion: 3x3x3 voxels on [0,1]^3. -/
def c1Grid : Volume_VdbConvertScalar := Volume_VdbConvertScalar.ofConvert c1Convert

/-- density volume with max_scalar 2 whose density at p is p.x. -/
def denA : Volume :=
  { has_scalar := true, has_color := false, bound := ⟨⟨0,0,0⟩, ⟨1,1,1⟩⟩,
    max_scalar := 2, eval_scalar := fun p => p.x, eval_color := fun _ => ⟨0,0,0⟩ }

/-- density volume with max_scalar 3 and constant density 1/2. -/
def denB : Volume :=
  { has_scalar := true, has_color := false, bound := ⟨⟨0,0,0⟩, ⟨2,2,2⟩⟩,
    max_scalar := 3, eval_scalar := fun _ => 1/2, eval_color := fun _ => ⟨0,0,0⟩ }

/-- the compositor construct builds from those two density volumes. -/
def c5M : Volume_Multi :=
  (Volume_Multi.construct [albConstWhite, albConstWhite] [denA, denB]).get (by decide)

/-- concrete non-degenerate, non-infinite surface point at the origin. -/
def pgA : PointGeometry :=
  { degenerated := false, infinite := false, p := ⟨0, 0, 0⟩, n := ⟨0, 0, 1⟩,
    t := (0, 0), u := ⟨1, 0, 0⟩, v := ⟨0, 1, 0⟩ }

/-- concrete non-degenerate, non-infinite surface point at (1,0,0). -/
def pgB : PointGeometry :=
  { degenerated := false, infinite := false, p := ⟨1, 0, 0⟩, n := ⟨0, 1, 0⟩,
    t := (0, 0), u := ⟨1, 0, 0⟩, v := ⟨0, 0, 1⟩ }

/-- small concrete loaded grid state: one voxel of value 2 on [0,1]^3. -/
def c10Grid : Volume_VdbConvertScalar :=
  { bound_ := ⟨⟨0, 0, 0⟩, ⟨1, 1, 1⟩⟩, max_scalar_ := 2, volume_ := [2],
    dimension_ := ⟨1, 1, 1⟩ }

/-- a fold accumulating a sum over a mapped list equals the list sum. -/
lemma foldl_add_map_eq_sum (f : Volume → ℚ) (l : List Volume) (a : ℚ) :
    l.foldl (fun s v => s + f v) a = a + (l.map f).sum := by
  induction l generalizing a with
  | nil => simp
  | cons v tl ih => simp [ih, add_assoc]

/-- payload reads guarded out of range return zero. -/
lemma eval_scalar_idx_out_of_range (g : Volume_VdbConvertScalar)
    (x y z : ℤ)
    (h : x < 0 ∨ y < 0 ∨ z < 0 ∨ g.dimension_.x ≤ x ∨ g.dimension_.y ≤ y ∨
      g.dimension_.z ≤ z) :
    g.eval_scalar_idx x y z = 0 := by
  unfold Volume_VdbConvertScalar.eval_scalar_idx
  rw [if_pos h]

/-- C9: every constructed Volume_Multi reports has_scalar and has_color as
the literal true, independently of its constituent volumes. -/
theorem c9_multi_capabilities_unconditional (m : Volume_Multi) :
    m.has_scalar = true ∧ m.has_color = true :=
  ⟨rfl, rfl⟩

/-- C3: a march call on the converted-grid volume returns normally to the
caller (no not-supported signal is raised) and never invokes the callback;
the only effect is an error message in the log. This evaluates the code at
the claim's situation and shows the claim false of the code. -/
theorem c3_march_returns_normally (g : Volume_VdbConvertScalar) (ray : Ray)
    (tmin tmax marchStep : ℚ) :
    (g.march ray tmin tmax marchStep).outcome = MarchOutcome.normalReturn ∧
    (g.march ray tmin tmax marchStep).errorLogged = true ∧
    (g.march ray tmin tmax marchStep).callbackCalls = 0 :=
  ⟨rfl, rfl, rfl⟩

/-- C2: a compositor of two density volumes that are zero everywhere
constructs successfully, yet eval_color at a point of zero total density
is the indeterminate value arising from the unguarded division by the zero
scalar sum (modelled none), not the zero color the spec defines. -/
theorem c2_zero_density_color_indeterminate :
    ∃ m, Volume_Multi.construct [albConstWhite, albConstWhite]
        [denConstZero, denConstZero] = some m ∧
      m.eval_color ⟨0, 0, 0⟩ = none ∧
      m.eval_color ⟨0, 0, 0⟩ ≠ some ⟨0, 0, 0⟩ := by
  refine ⟨_, rfl, ?_, ?_⟩ <;> simp [Volume_Multi.eval_color, denConstZero]

set_option maxHeartbeats 1000000 in
/-- C1: converting the constant-1 field on the bound [0,1]^3 with
step_size 1/2 yields a 3x3x3 grid on the unchanged bound whose stored
sample at lattice index (2,2,2) - flat index 26, lattice position
bound.min + (2,2,2) * step_size = (1,1,1) - is 1, yet eval_scalar of the
reloaded grid at that exact lattice position returns 0: the interpolation
weights do not collapse to the stored sample, because eval_scalar scales
bound space by the voxel count 3 instead of the cell count 2. -/
theorem c1_lattice_round_trip_fails :
    c1Convert.dimension = ⟨3, 3, 3⟩ ∧ c1Convert.bound = ⟨⟨0, 0, 0⟩, ⟨1, 1, 1⟩⟩ ∧
      c1Convert.step_size = 1/2 ∧ c1Convert.payload.getD 26 0 = 1 ∧
      c1Grid.eval_scalar ⟨1, 1, 1⟩ = 0 := by
  have hfm : fmodQ (1 - 0 : ℚ) (1/2) = 0 := by norm_num [fmodQ, truncQ]
  have hd : c1Convert.dimension = ⟨3, 3, 3⟩ := by
    simp only [c1Convert, Volume_VdbConvertScalar.convert, Vec3.sub, Vec3.add,
      Vec3.divs, Vec3.splat, hfm]
    norm_num [epsModel, roundC]
  have hb : c1Convert.bound = ⟨⟨0, 0, 0⟩, ⟨1, 1, 1⟩⟩ := by
    simp only [c1Convert, Volume_VdbConvertScalar.convert, Vec3.sub, Vec3.add,
      Vec3.divs, Vec3.splat, hfm]
    norm_num [epsModel]
  refine ⟨hd, hb, rfl, ?_, ?_⟩
  · simp only [c1Convert, Volume_VdbConvertScalar.convert, Vec3.sub, Vec3.add,
      Vec3.divs, Vec3.splat, hfm]
    norm_num [epsModel, roundC]
    simp [List.range_succ]
  · simp only [c1Grid, Volume_VdbConvertScalar.ofConvert,
      Volume_VdbConvertScalar.eval_scalar, Volume_VdbConvertScalar.lerp_idx,
      Volume_VdbConvertScalar.eval_scalar_idx, Volume_VdbConvertScalar.lerp,
      hd, hb, Vec3.sub, Vec3.add, Vec3.div, Vec3.mul, Vec3.ofInt]
    norm_num

set_option maxHeartbeats 1000000 in
/-- C7 counterexample: the converted 3x3x3 grid on [0,1]^3 filled with
samples of the constant-1 field, evaluated at (-1/8, 1/2, 1/2) - a point
outside the grid bound - returns 5/8, not 0: the point is less than one
cell outside, so the corners at lattice index 0 still carry weight. -/
theorem c7_outside_bound_not_zero :
    ¬ c1Grid.bound.contains ⟨-1/8, 1/2, 1/2⟩ ∧
      c1Grid.eval_scalar ⟨-1/8, 1/2, 1/2⟩ = 5/8 := by
  have hfm : fmodQ (1 - 0 : ℚ) (1/2) = 0 := by norm_num [fmodQ, truncQ]
  have hd : c1Grid.dimension_ = ⟨3, 3, 3⟩ := by
    simp only [c1Grid, Volume_VdbConvertScalar.ofConvert, c1Convert,
      Volume_VdbConvertScalar.convert, Vec3.sub, Vec3.add, Vec3.divs,
      Vec3.splat, hfm]
    norm_num [epsModel, roundC]
  have hb : c1Grid.bound_ = ⟨⟨0, 0, 0⟩, ⟨1, 1, 1⟩⟩ := by
    simp only [c1Grid, Volume_VdbConvertScalar.ofConvert, c1Convert,
      Volume_VdbConvertScalar.convert, Vec3.sub, Vec3.add, Vec3.divs,
      Vec3.splat, hfm]
    norm_num [epsModel]
  have hp : c1Grid.volume_ = List.replicate 27 1 := by
    simp only [c1Grid, Volume_VdbConvertScalar.ofConvert, c1Convert,
      Volume_VdbConvertScalar.convert, Vec3.sub, Vec3.add, Vec3.divs,
      Vec3.splat, hfm]
    norm_num [epsModel, roundC]
    simp [List.range_succ, List.replicate]
  constructor
  · simp [Volume_VdbConvertScalar.bound, hb, Bound.contains]
    norm_num
  · simp only [Volume_VdbConvertScalar.eval_scalar,
      Volume_VdbConvertScalar.lerp_idx, Volume_VdbConvertScalar.eval_scalar_idx,
      Volume_VdbConvertScalar.lerp, hd, hb,
      Vec3.sub, Vec3.add, Vec3.div, Vec3.mul, Vec3.ofInt]
    norm_num
    rw [hp]
    norm_num [show Int.toNat 12 = 12 from rfl, show Int.toNat 15 = 15 from rfl,
      show Int.toNat 21 = 21 from rfl, show Int.toNat 24 = 24 from rfl,
      List.replicate]

/-- C4: Volume_Multi construction fails (throws InvalidArgument, modelled
none) if and only if the density list is empty, the albedo list is empty,
the lists have unequal length, some density volume lacks scalar support,
or some albedo volume lacks color support; on lists satisfying none of
these it succeeds. -/
theorem c4_construct_invalid_iff (volumes_alb volumes_den : List Volume) :
    Volume_Multi.construct volumes_alb volumes_den = none ↔
      (volumes_den = [] ∨ volumes_alb = [] ∨
       volumes_den.length ≠ volumes_alb.length ∨
       (∃ v ∈ volumes_den, v.has_scalar = false) ∨
       (∃ v ∈ volumes_alb, v.has_color = false)) := by
  unfold Volume_Multi.construct
  split_ifs with h1 h2
  · simp only [eq_self_iff_true, true_iff]
    rcases h1 with h | h | h
    · exact Or.inr (Or.inl (List.length_eq_zero.mp h))
    · exact Or.inl (List.length_eq_zero.mp h)
    · exact Or.inr (Or.inr (Or.inl h))
  · simp only [reduceCtorEq, false_iff]
    push_neg at h1 ⊢
    obtain ⟨ha, hd, hlen⟩ := h1
    refine ⟨fun h => hd (by simp [h]), fun h => ha (by simp [h]), hlen, ?_, ?_⟩
    · intro v hv
      have := (List.all_eq_true.mp h2.2) v hv
      simp at this
      simp [this]
    · intro v hv
      have := (List.all_eq_true.mp h2.1) v hv
      simp at this
      simp [this]
  · simp only [eq_self_iff_true, true_iff]
    rcases not_and_or.mp h2 with h | h
    · refine Or.inr (Or.inr (Or.inr (Or.inr ?_)))
      rw [List.all_eq_true] at h
      push_neg at h
      obtain ⟨v, hv, hb⟩ := h
      exact ⟨v, hv, by simpa using hb⟩
    · refine Or.inr (Or.inr (Or.inr (Or.inl ?_)))
      rw [List.all_eq_true] at h
      push_neg at h
      obtain ⟨v, hv, hb⟩ := h
      exact ⟨v, hv, by simpa using hb⟩

/-- C5: for every successfully constructed Volume_Multi and every point p,
eval_scalar p is the sum over the density volumes of their eval_scalar p,
and max_scalar is the sum over the density volumes of their max_scalar. -/
theorem c5_compositor_sums (volumes_alb volumes_den : List Volume)
    (m : Volume_Multi)
    (h : Volume_Multi.construct volumes_alb volumes_den = some m) (p : Vec3) :
    m.eval_scalar p = (volumes_den.map (fun v => v.eval_scalar p)).sum ∧
    m.max_scalar = (volumes_den.map (fun v => v.max_scalar)).sum := by
  unfold Volume_Multi.construct at h
  split_ifs at h with h1 h2
  rw [Option.some_inj] at h
  subst h
  constructor
  · rw [Volume_Multi.eval_scalar]
    rw [foldl_add_map_eq_sum (fun v => v.eval_scalar p) volumes_den 0]
    simp
  · rw [Volume_Multi.max_scalar]
    rw [show (Volume_Multi.mk _ volumes_den volumes_alb _ _).max_scalar_ =
      volumes_den.foldl (fun a v => a + v.max_scalar) 0 from rfl]
    rw [foldl_add_map_eq_sum (fun v => v.max_scalar) volumes_den 0]
    simp

/-- witness for C5 at the concrete compositor of denA (max_scalar 2) and
denB (max_scalar 3): eval_scalar at (1,0,0) is 1 + 1/2 and max_scalar is
5. -/
theorem c5_witness : c5M.eval_scalar ⟨1, 0, 0⟩ = 3/2 ∧ c5M.max_scalar = 5 := by
  have h := c5_compositor_sums [albConstWhite, albConstWhite] [denA, denB] c5M
    (Option.some_get (by decide)).symm ⟨1, 0, 0⟩
  refine ⟨?_, ?_⟩
  · rw [h.1]; simp [denA, denB]; norm_num
  · rw [h.2]; simp [denA, denB]; norm_num

/-- C10: the integer eval_scalar overload is total and memory safe: when
any index is outside [0, dimension) on its axis it returns 0 without
touching the payload, and when all three indices are in range the
row-major flat index is nonnegative and strictly below the payload length
dimension.x * dimension.y * dimension.z, so the guarded read never indexes
outside the payload array. -/
theorem c10_payload_reads_guarded (g : Volume_VdbConvertScalar) (x y z : ℤ) :
    ((x < 0 ∨ y < 0 ∨ z < 0 ∨ g.dimension_.x ≤ x ∨ g.dimension_.y ≤ y ∨
        g.dimension_.z ≤ z) → g.eval_scalar_idx x y z = 0) ∧
    ((0 ≤ x ∧ x < g.dimension_.x ∧ 0 ≤ y ∧ y < g.dimension_.y ∧ 0 ≤ z ∧
        z < g.dimension_.z) →
      0 ≤ z * g.dimension_.x * g.dimension_.y + y * g.dimension_.x + x ∧
      z * g.dimension_.x * g.dimension_.y + y * g.dimension_.x + x <
        g.dimension_.x * g.dimension_.y * g.dimension_.z ∧
      g.eval_scalar_idx x y z =
        g.volume_.getD (z * g.dimension_.x * g.dimension_.y +
          y * g.dimension_.x + x).toNat 0) := by
  constructor
  · exact eval_scalar_idx_out_of_range g x y z
  · rintro ⟨hx0, hx1, hy0, hy1, hz0, hz1⟩
    have hdx : 0 < g.dimension_.x := lt_of_le_of_lt hx0 hx1
    have hdy : 0 < g.dimension_.y := lt_of_le_of_lt hy0 hy1
    have hdz : 0 < g.dimension_.z := lt_of_le_of_lt hz0 hz1
    refine ⟨by positivity, ?_, ?_⟩
    · nlinarith [mul_pos hdx hdy, mul_nonneg (mul_nonneg hz0 hdx.le) hdy.le,
        mul_nonneg hy0 hdx.le]
    · rw [Volume_VdbConvertScalar.eval_scalar_idx, if_neg]
      push_neg
      exact ⟨hx0, hy0, hz0, hx1, hy1, hz1⟩

/-- C7 amended: every one of the corner lattice indices falling outside
[0, dimension) on some axis contributes a sample of exactly zero (no
clamping, no wraparound); and eval_scalar returns exactly 0 at any point
whose floored lattice coordinate on some axis is below -1 or at least the
voxel count, i.e. at points whose interpolation cell lies entirely outside
the data (at least one cell outside the bound). Points outside the bound
by less than one cell can evaluate nonzero, which is why the claim's
consequent fails (see the counterexample). -/
theorem c7_amended_vacuum_outside (g : Volume_VdbConvertScalar) (x y z : ℤ)
    (p : Vec3) :
    ((x < 0 ∨ y < 0 ∨ z < 0 ∨ g.dimension_.x ≤ x ∨ g.dimension_.y ≤ y ∨
        g.dimension_.z ≤ z) → g.eval_scalar_idx x y z = 0) ∧
    (((⌊(p.x - g.bound_.min.x) / (g.bound_.max.x - g.bound_.min.x) *
          (g.dimension_.x : ℚ)⌋ < -1 ∨
        g.dimension_.x ≤ ⌊(p.x - g.bound_.min.x) /
          (g.bound_.max.x - g.bound_.min.x) * (g.dimension_.x : ℚ)⌋) ∨
      (⌊(p.y - g.bound_.min.y) / (g.bound_.max.y - g.bound_.min.y) *
          (g.dimension_.y : ℚ)⌋ < -1 ∨
        g.dimension_.y ≤ ⌊(p.y - g.bound_.min.y) /
          (g.bound_.max.y - g.bound_.min.y) * (g.dimension_.y : ℚ)⌋) ∨
      (⌊(p.z - g.bound_.min.z) / (g.bound_.max.z - g.bound_.min.z) *
          (g.dimension_.z : ℚ)⌋ < -1 ∨
        g.dimension_.z ≤ ⌊(p.z - g.bound_.min.z) /
          (g.bound_.max.z - g.bound_.min.z) * (g.dimension_.z : ℚ)⌋)) →
      g.eval_scalar p = 0) := by
  refine ⟨eval_scalar_idx_out_of_range g x y z, ?_⟩
  intro hfar
  simp only [Volume_VdbConvertScalar.eval_scalar, Vec3.sub, Vec3.div, Vec3.mul,
    Vec3.ofInt, Volume_VdbConvertScalar.lerp_idx]
  rcases hfar with hx | hy | hz
  · have e1 : ∀ yy zz : ℤ, g.eval_scalar_idx
        ⌊(p.x - g.bound_.min.x) / (g.bound_.max.x - g.bound_.min.x) *
          (g.dimension_.x : ℚ)⌋ yy zz = 0 := by
      intro yy zz
      refine eval_scalar_idx_out_of_range g _ yy zz ?_
      rcases hx with h | h
      · exact Or.inl (by omega)
      · exact Or.inr (Or.inr (Or.inr (Or.inl h)))
    have e2 : ∀ yy zz : ℤ, g.eval_scalar_idx
        (⌊(p.x - g.bound_.min.x) / (g.bound_.max.x - g.bound_.min.x) *
          (g.dimension_.x : ℚ)⌋ + 1) yy zz = 0 := by
      intro yy zz
      refine eval_scalar_idx_out_of_range g _ yy zz ?_
      rcases hx with h | h
      · exact Or.inl (by omega)
      · exact Or.inr (Or.inr (Or.inr (Or.inl (by omega))))
    simp [e1, e2, Volume_VdbConvertScalar.lerp]
  · have e1 : ∀ xx zz : ℤ, g.eval_scalar_idx xx
        ⌊(p.y - g.bound_.min.y) / (g.bound_.max.y - g.bound_.min.y) *
          (g.dimension_.y : ℚ)⌋ zz = 0 := by
      intro xx zz
      refine eval_scalar_idx_out_of_range g xx _ zz ?_
      rcases hy with h | h
      · exact Or.inr (Or.inl (by omega))
      · exact Or.inr (Or.inr (Or.inr (Or.inr (Or.inl h))))
    have e2 : ∀ xx zz : ℤ, g.eval_scalar_idx xx
        (⌊(p.y - g.bound_.min.y) / (g.bound_.max.y - g.bound_.min.y) *
          (g.dimension_.y : ℚ)⌋ + 1) zz = 0 := by
      intro xx zz
      refine eval_scalar_idx_out_of_range g xx _ zz ?_
      rcases hy with h | h
      · exact Or.inr (Or.inl (by omega))
      · exact Or.inr (Or.inr (Or.inr (Or.inr (Or.inl (by omega)))))
    simp [e1, e2, Volume_VdbConvertScalar.lerp]
  · have e1 : ∀ xx yy : ℤ, g.eval_scalar_idx xx yy
        ⌊(p.z - g.bound_.min.z) / (g.bound_.max.z - g.bound_.min.z) *
          (g.dimension_.z : ℚ)⌋ = 0 := by
      intro xx yy
      refine eval_scalar_idx_out_of_range g xx yy _ ?_
      rcases hz with h | h
      · exact Or.inr (Or.inr (Or.inl (by omega)))
      · exact Or.inr (Or.inr (Or.inr (Or.inr (Or.inr h))))
    have e2 : ∀ xx yy : ℤ, g.eval_scalar_idx xx yy
        (⌊(p.z - g.bound_.min.z) / (g.bound_.max.z - g.bound_.min.z) *
          (g.dimension_.z : ℚ)⌋ + 1) = 0 := by
      intro xx yy
      refine eval_scalar_idx_out_of_range g xx yy _ ?_
      rcases hz with h | h
      · exact Or.inr (Or.inr (Or.inl (by omega)))
      · exact Or.inr (Or.inr (Or.inr (Or.inr (Or.inr (by omega)))))
    simp [e1, e2, Volume_VdbConvertScalar.lerp]

/-- C8: geometryTerm is symmetric under swapping its two endpoints for
every pair of distinct, non-degenerate, non-infinite point geometries,
and for every interpretation of the square root. -/
theorem c8_geometryTerm_symm (sqrtF : ℚ → ℚ) (s1 s2 : PointGeometry)
    (h1 : s1.degenerated = false) (h2 : s2.degenerated = false)
    (h3 : s1.infinite = false) (h4 : s2.infinite = false)
    (hp : s1.p ≠ s2.p) :
    surface.geometryTerm sqrtF s1 s2 = surface.geometryTerm sqrtF s2 s1 := by
  have hL : (s2.p.x - s1.p.x) * (s2.p.x - s1.p.x) +
      (s2.p.y - s1.p.y) * (s2.p.y - s1.p.y) +
      (s2.p.z - s1.p.z) * (s2.p.z - s1.p.z) =
      (s1.p.x - s2.p.x) * (s1.p.x - s2.p.x) +
      (s1.p.y - s2.p.y) * (s1.p.y - s2.p.y) +
      (s1.p.z - s2.p.z) * (s1.p.z - s2.p.z) := by ring
  simp only [surface.geometryTerm, Vec3.sub, Vec3.dot, Vec3.divs, Vec3.neg,
    h1, h2, Bool.false_eq_true, if_false]
  rw [hL]
  congr 1
  rw [mul_comm]
  congr 1
  · congr 1
    ring
  · congr 1
    ring

/-- the fmod remainder of a nonnegative value by a positive step lies in
[0, step). -/
lemma fmod_nonneg_lt (ext step : ℚ) (hstep : 0 < step) (hext : 0 ≤ ext) :
    0 ≤ fmodQ ext step ∧ fmodQ ext step < step := by
  unfold fmodQ truncQ
  have h0 : 0 ≤ ext / step := div_nonneg hext hstep.le
  rw [if_pos h0]
  have hq : ext = step * (ext / step) := by field_simp
  have hf1 : ((⌊ext / step⌋ : ℤ) : ℚ) ≤ ext / step := Int.floor_le _
  have hf2 : ext / step < (⌊ext / step⌋ : ℤ) + 1 := Int.lt_floor_add_one _
  constructor <;> nlinarith

/-- rounding commutes with adding one on nonnegative arguments. -/
lemma roundC_add_one (q : ℚ) (hq : 0 ≤ q) : roundC (q + 1) = roundC q + 1 := by
  unfold roundC
  rw [if_pos hq, if_pos (by linarith)]
  rw [show q + 1 + 1/2 = (q + 1/2) + 1 by ring]
  exact_mod_cast Int.floor_add_one (q + 1/2)

/-- when the remainder is zero or at least eps, the padded extent is an
integer multiple of the step. -/
lemma pad_exact_multiple (eps step ext : ℚ) (heps : 0 < eps) (hstep : 0 < step)
    (hext : 0 ≤ ext)
    (h : fmodQ ext step = 0 ∨ eps ≤ fmodQ ext step) :
    ∃ k : ℤ, ext + (step -
      (if fmodQ ext step < eps then step else fmodQ ext step)) = (k : ℚ) * step := by
  have h0 : 0 ≤ ext / step := div_nonneg hext hstep.le
  rcases h with h | h
  · rw [if_pos (by rw [h]; exact heps)]
    refine ⟨⌊ext / step⌋, ?_⟩
    unfold fmodQ truncQ at h
    rw [if_pos h0] at h
    linear_combination h
  · rw [if_neg (not_lt.mpr h)]
    refine ⟨⌊ext / step⌋ + 1, ?_⟩
    unfold fmodQ truncQ
    rw [if_pos h0]
    push_cast
    ring

/-- the padded extent is nonnegative. -/
lemma padded_nonneg (eps step ext : ℚ) (hstep : 0 < step) (hext : 0 ≤ ext) :
    0 ≤ ext + (step - (if fmodQ ext step < eps then step else fmodQ ext step)) := by
  obtain ⟨h0, h1⟩ := fmod_nonneg_lt ext step hstep hext
  split_ifs <;> linarith

/-- C6 amended: for each axis the converter computes remainder =
fmod(extent, step_size), replaces a remainder below eps by a full
step_size, expands the bound by (step_size - remainder) / 2 on each side,
and persists round(padded_extent / step_size) + 1 voxels; the padded
extent is an exact integer multiple of step_size whenever the original
remainder is zero or at least eps. (When the remainder is positive but
below eps the expansion is zero and the padded extent is not a multiple -
see the counterexample.) -/
theorem c6_amended_padding (eps : ℚ) (field : Vec3 → ℚ) (srcBound : Bound)
    (source_max scale step_size : ℚ) (heps : 0 < eps) (hstep : 0 < step_size)
    (hx : srcBound.min.x ≤ srcBound.max.x) (hy : srcBound.min.y ≤ srcBound.max.y)
    (hz : srcBound.min.z ≤ srcBound.max.z) :
    let cr := Volume_VdbConvertScalar.convert eps field srcBound source_max
      scale step_size
    let rX := fmodQ (srcBound.max.x - srcBound.min.x) step_size
    let rY := fmodQ (srcBound.max.y - srcBound.min.y) step_size
    let rZ := fmodQ (srcBound.max.z - srcBound.min.z) step_size
    ((cr.bound.min.x = srcBound.min.x -
        (step_size - (if rX < eps then step_size else rX)) / 2 ∧
      cr.bound.max.x = srcBound.max.x +
        (step_size - (if rX < eps then step_size else rX)) / 2) ∧
     cr.dimension.x = roundC ((cr.bound.max.x - cr.bound.min.x) / step_size) + 1 ∧
     ((rX = 0 ∨ eps ≤ rX) →
       ∃ k : ℤ, cr.bound.max.x - cr.bound.min.x = (k : ℚ) * step_size)) ∧
    ((cr.bound.min.y = srcBound.min.y -
        (step_size - (if rY < eps then step_size else rY)) / 2 ∧
      cr.bound.max.y = srcBound.max.y +
        (step_size - (if rY < eps then step_size else rY)) / 2) ∧
     cr.dimension.y = roundC ((cr.bound.max.y - cr.bound.min.y) / step_size) + 1 ∧
     ((rY = 0 ∨ eps ≤ rY) →
       ∃ k : ℤ, cr.bound.max.y - cr.bound.min.y = (k : ℚ) * step_size)) ∧
    ((cr.bound.min.z = srcBound.min.z -
        (step_size - (if rZ < eps then step_size else rZ)) / 2 ∧
      cr.bound.max.z = srcBound.max.z +
        (step_size - (if rZ < eps then step_size else rZ)) / 2) ∧
     cr.dimension.z = roundC ((cr.bound.max.z - cr.bound.min.z) / step_size) + 1 ∧
     ((rZ = 0 ∨ eps ≤ rZ) →
       ∃ k : ℤ, cr.bound.max.z - cr.bound.min.z = (k : ℚ) * step_size)) := by
  have hpx := padded_nonneg eps step_size (srcBound.max.x - srcBound.min.x)
    hstep (by linarith)
  have hpy := padded_nonneg eps step_size (srcBound.max.y - srcBound.min.y)
    hstep (by linarith)
  have hpz := padded_nonneg eps step_size (srcBound.max.z - srcBound.min.z)
    hstep (by linarith)
  refine ⟨⟨⟨?_, ?_⟩, ?_, ?_⟩, ⟨⟨?_, ?_⟩, ?_, ?_⟩, ⟨⟨?_, ?_⟩, ?_, ?_⟩⟩
  · simp only [Volume_VdbConvertScalar.convert, Vec3.sub, Vec3.add, Vec3.divs,
      Vec3.splat]
  · simp only [Volume_VdbConvertScalar.convert, Vec3.sub, Vec3.add, Vec3.divs,
      Vec3.splat]
  · simp only [Volume_VdbConvertScalar.convert, Vec3.sub, Vec3.add, Vec3.divs,
      Vec3.splat]
    rw [roundC_add_one]
    exact div_nonneg (by linarith) hstep.le
  · simp only [Volume_VdbConvertScalar.convert, Vec3.sub, Vec3.add, Vec3.divs,
      Vec3.splat]
    intro h
    obtain ⟨k, hk⟩ := pad_exact_multiple eps step_size
      (srcBound.max.x - srcBound.min.x) heps hstep (by linarith) h
    exact ⟨k, by linear_combination hk⟩
  · simp only [Volume_VdbConvertScalar.convert, Vec3.sub, Vec3.add, Vec3.divs,
      Vec3.splat]
  · simp only [Volume_VdbConvertScalar.convert, Vec3.sub, Vec3.add, Vec3.divs,
      Vec3.splat]
  · simp only [Volume_VdbConvertScalar.convert, Vec3.sub, Vec3.add, Vec3.divs,
      Vec3.splat]
    rw [roundC_add_one]
    exact div_nonneg (by linarith) hstep.le
  · simp only [Volume_VdbConvertScalar.convert, Vec3.sub, Vec3.add, Vec3.divs,
      Vec3.splat]
    intro h
    obtain ⟨k, hk⟩ := pad_exact_multiple eps step_size
      (srcBound.max.y - srcBound.min.y) heps hstep (by linarith) h
    exact ⟨k, by linear_combination hk⟩
  · simp only [Volume_VdbConvertScalar.convert, Vec3.sub, Vec3.add, Vec3.divs,
      Vec3.splat]
  · simp only [Volume_VdbConvertScalar.convert, Vec3.sub, Vec3.add, Vec3.divs,
      Vec3.splat]
  · simp only [Volume_VdbConvertScalar.convert, Vec3.sub, Vec3.add, Vec3.divs,
      Vec3.splat]
    rw [roundC_add_one]
    exact div_nonneg (by linarith) hstep.le
  · simp only [Volume_VdbConvertScalar.convert, Vec3.sub, Vec3.add, Vec3.divs,
      Vec3.splat]
    intro h
    obtain ⟨k, hk⟩ := pad_exact_multiple eps step_size
      (srcBound.max.z - srcBound.min.z) heps hstep (by linarith) h
    exact ⟨k, by linear_combination hk⟩

/-- C6 counterexample: with eps = 1/10000, a source extent of 20001/20000
on the x axis and step_size 1/10, the remainder 1/20000 is positive but
below eps, the bound is left unchanged, and the padded extent 20001/20000
is not an integer multiple of 1/10 - refuting the claim's unconditional
'exact multiple' clause. -/
theorem c6_exact_multiple_counterexample :
    ¬ ∃ k : ℤ, (Volume_VdbConvertScalar.convert epsModel (fun _ => 1)
        ⟨⟨0, 0, 0⟩, ⟨20001/20000, 1/10, 1/10⟩⟩ 1 1 (1/10)).bound.max.x -
      (Volume_VdbConvertScalar.convert epsModel (fun _ => 1)
        ⟨⟨0, 0, 0⟩, ⟨20001/20000, 1/10, 1/10⟩⟩ 1 1 (1/10)).bound.min.x =
      (k : ℚ) * (1/10) := by
  have hb : (Volume_VdbConvertScalar.convert epsModel (fun _ => 1)
        ⟨⟨0, 0, 0⟩, ⟨20001/20000, 1/10, 1/10⟩⟩ 1 1 (1/10)).bound.max.x -
      (Volume_VdbConvertScalar.convert epsModel (fun _ => 1)
        ⟨⟨0, 0, 0⟩, ⟨20001/20000, 1/10, 1/10⟩⟩ 1 1 (1/10)).bound.min.x =
      20001/20000 := by
    simp only [Volume_VdbConvertScalar.convert, Vec3.sub, Vec3.add, Vec3.divs,
      Vec3.splat]
    norm_num [fmodQ, truncQ, epsModel]
  rintro ⟨k, hk⟩
  rw [hb] at hk
  have h2 : (200010 : ℤ) = k * 20000 := by
    have : (200010 : ℚ) = (k : ℚ) * 20000 := by linear_combination 200000 * hk
    exact_mod_cast this
  omega

/-- witness for C6 amended at eps = 1/10000, the constant-1 field on
[0,1]^3 and step_size 1/2: the stored x voxel count is
round(padded_extent / step_size) + 1. -/
theorem c6_amended_witness :
    (Volume_VdbConvertScalar.convert (1/10000) (fun _ => 1)
      ⟨⟨0, 0, 0⟩, ⟨1, 1, 1⟩⟩ 1 1 (1/2)).dimension.x =
    roundC (((Volume_VdbConvertScalar.convert (1/10000) (fun _ => 1)
        ⟨⟨0, 0, 0⟩, ⟨1, 1, 1⟩⟩ 1 1 (1/2)).bound.max.x -
      (Volume_VdbConvertScalar.convert (1/10000) (fun _ => 1)
        ⟨⟨0, 0, 0⟩, ⟨1, 1, 1⟩⟩ 1 1 (1/2)).bound.min.x) / (1/2)) + 1 := by
  have h := c6_amended_padding (1/10000) (fun _ => 1) ⟨⟨0, 0, 0⟩, ⟨1, 1, 1⟩⟩ 1 1
    (1/2) (by norm_num) (by norm_num) (by norm_num) (by norm_num) (by norm_num)
  exact h.1.2.1

/-- witness for C8 at two concrete distinct surface points with the
identity as the square root interpretation. -/
theorem c8_witness :
    pgA.p ≠ pgB.p ∧
    surface.geometryTerm (fun q => q) pgA pgB =
      surface.geometryTerm (fun q => q) pgB pgA :=
  ⟨by decide, c8_geometryTerm_symm (fun q => q) pgA pgB rfl rfl rfl rfl (by decide)⟩

/-- witness for C10 on the one-voxel grid: index -1 is rejected with value
0, and the in-range index (0,0,0) has flat index 0 within the payload
length and reads the payload. -/
theorem c10_witness :
    c10Grid.eval_scalar_idx (-1) 0 0 = 0 ∧
    (0 ≤ 0 * c10Grid.dimension_.x * c10Grid.dimension_.y +
        0 * c10Grid.dimension_.x + 0 ∧
      0 * c10Grid.dimension_.x * c10Grid.dimension_.y +
        0 * c10Grid.dimension_.x + 0 <
        c10Grid.dimension_.x * c10Grid.dimension_.y * c10Grid.dimension_.z ∧
      c10Grid.eval_scalar_idx 0 0 0 =
        c10Grid.volume_.getD (0 * c10Grid.dimension_.x * c10Grid.dimension_.y +
          0 * c10Grid.dimension_.x + 0).toNat 0) :=
  ⟨(c10_payload_reads_guarded c10Grid (-1) 0 0).1 (Or.inl (by decide)),
   (c10_payload_reads_guarded c10Grid 0 0 0).2 (by decide)⟩

/-- witness for C7 amended on the one-voxel grid: the out-of-range corner
(5,0,0) contributes 0, and the point (-3,0,0), more than one cell outside
the bound, evaluates to 0. -/
theorem c7_amended_witness :
    c10Grid.eval_scalar_idx 5 0 0 = 0 ∧
    c10Grid.eval_scalar ⟨-3, 0, 0⟩ = 0 := by
  refine ⟨(c7_amended_vacuum_outside c10Grid 5 0 0 ⟨-3, 0, 0⟩).1 ?_,
    (c7_amended_vacuum_outside c10Grid 5 0 0 ⟨-3, 0, 0⟩).2 ?_⟩
  · exact Or.inr (Or.inr (Or.inr (Or.inl (by decide))))
  · refine Or.inl (Or.inl ?_)
    norm_num [c10Grid]
